import Mathlib

/-!
Verification of the Guided Interview Dialogue Engine
(`src/racer_recap_flask_mvp.py`).

Shallow embedding conventions:
* Python strings are embedded as `List Char` (`Str`); `str.strip`, `str.split`,
  slicing and `in` are translated to explicit list functions below.
* The external text-generation collaborator (the OpenAI client) is embedded as
  an `Env` value holding, for each call site, what the generation call would
  do there: raise an exception, return unparseable content, or return the
  parsed JSON fields.  `model_available` mirrors `_model_available()`.
* `random.choice(xs)` is embedded as `xs[r % len(xs)]` for an arbitrary draw
  `r` carried in `Env`; claims that must hold regardless of the draw quantify
  over it.
* Exceptions escaping a function are embedded as `Except.error ()`; in-place
  mutation of the per-session dict is embedded by returning the updated
  `SessionState` next to the response, including on the error path (a Python
  exception does not roll back earlier mutations).
* The file write and timestamp in `_save_current_markdown` are I/O outside
  the engine; they are embedded as an environment-chosen filename and an
  environment-chosen "the write raises" bit.
-/

namespace RacerRecap

/-- Python strings, embedded as lists of characters. -/
abbrev Str := List Char

/-- The ASCII apostrophe character (written by code to keep it out of
literals). -/
def apos : Char := Char.ofNat 39

/-- `str.strip()`: remove leading and trailing whitespace. -/
def strip (s : Str) : Str :=
  ((s.dropWhile Char.isWhitespace).reverse.dropWhile Char.isWhitespace).reverse

/-- `sep.join(parts)`. -/
def joinSep (sep : Str) : List Str → Str
  | [] => []
  | [x] => x
  | x :: xs => x ++ sep ++ joinSep sep xs

/-- `str.split()` with no argument: split on whitespace runs, dropping empty
pieces. -/
def splitWS (s : Str) : List Str :=
  (s.splitOnP Char.isWhitespace).filter (fun p => p ≠ [])

/-- One Q&A turn, `{"q": ..., "a": ...}` in the source. -/
structure Turn where
  q : Str
  a : Str
deriving DecidableEq, Repr

/-- Per-session mutable state, the value stored in `SESSIONS[sid]`. -/
structure SessionState where
  stage : Nat
  history : List Turn
  followup_pending : Bool
  driver_name : Str
deriving DecidableEq, Repr

/-- One entry of `STORYLINE`.  The `direction` field of the source is prompt
text consumed only by the generation collaborator and is not part of the
engine's control flow, so it is omitted here. -/
structure StoryStage where
  id : Str
  variants : List Str
deriving DecidableEq, Repr

/-- The fixed storyline catalog (ids and fallback question variants, verbatim
from the source). -/
def STORYLINE : List StoryStage :=
  [ { id := "event".toList,
      variants :=
        [ "What event or race is this?".toList,
          "Which event is this — and how’s the atmosphere out there?".toList,
          "Let’s start with the event — what event are we talking about?".toList ] },
    { id := "intro".toList,
      variants :=
        [ "Let’s start with a quick intro — what’s your name and what car did you drive?".toList,
          "Kick us off with your name and the car you ran.".toList,
          "Before we dive in, tell me your name and the car you brought to the event.".toList ] },
    { id := "summary".toList,
      variants :=
        [ "In a sentence or two, how did the race go overall?".toList,
          "Give me a quick overview — how would you sum up the race?".toList,
          "Big picture: how did things go out there?".toList ] },
    { id := "highlight".toList,
      variants :=
        [ "What was the most exciting moment for you? What made it stand out?".toList,
          "Tell me about your favorite moment — what happened?".toList,
          "Pick a highlight — what was the best moment out there and why?".toList ] },
    { id := "performance".toList,
      variants :=
        [ "How did you feel about your results or timing, and what’s one takeaway?".toList,
          "Looking at your times/results, how do you feel — and what did you learn?".toList,
          "Results-wise, how did it go, and what’s something you’ll carry forward?".toList ] },
    { id := "challenge".toList,
      variants :=
        [ "What was the toughest part of the race, and how did you handle it?".toList,
          "Tell me about a hard moment out there — what did you do to get through it?".toList,
          "What challenged you most out there, and how did you respond?".toList ] },
    { id := "wrap".toList,
      variants :=
        [ "What’s something you learned, and what’s your goal for the next race?".toList,
          "What will you take into your next event?".toList,
          "What’s a lesson and a plan you’ll try next time?".toList ] },
    { id := "tips".toList,
      variants :=
        [ "Is there one tip you’d share with other drivers from this event?".toList,
          "Got any quick tip you’d pass on to someone running this course next?".toList,
          "What’s one practical tip you’d give others after this event?".toList ] },
    { id := "closing".toList,
      variants :=
        [ "Anything else you want to share before we wrap up the interview?".toList,
          "Any shoutouts or final thoughts you want to add?".toList,
          "Before we close, is there anything we didn’t cover that you’d like to mention?".toList ] } ]

/-- `STORYLINE[i]`, with a dummy stage out of range (the source never indexes
out of range on the paths embedded here). -/
def stageAt (i : Nat) : StoryStage := STORYLINE.getD i { id := [], variants := [] }

/-- The six follow-up prefixes of `FOLLOWUP_PREFIXES`. -/
def FOLLOWUP_PREFIXES : List Str :=
  [ "As a follow-up,".toList,
    "Quick follow-up —".toList,
    "One quick follow-up:".toList,
    "Brief follow-up:".toList,
    "Just to stay on that thread —".toList,
    "Sticking with that for a second —".toList ]

/-! ### `_sanitize_ack` -/

/-- Does the (reversed) accumulator end the original prefix with `.`, `!` or
`?`, i.e. is the previous original character sentence punctuation?  Embeds the
lookbehind `(?<=[.!?])` of the split pattern. -/
def prevIsPunct (accRev : Str) : Bool :=
  match accRev with
  | p :: _ => p = '.' || p = '!' || p = '?'
  | [] => false

/-- Worker for `re.split(r"(?<=[.!?])\s+", text)`: a whitespace run preceded
by sentence punctuation separates parts and is consumed.  `fuel` is a
termination device; every step consumes at least one input character, so the
`s.length + 1` supplied by `splitSents` always suffices and the fuel-exhausted
branch is unreachable. -/
def splitSentsGo : Nat → Str → Str → List Str
  | 0, accRev, rest => [accRev.reverse ++ rest]
  | _ + 1, accRev, [] => [accRev.reverse]
  | fuel + 1, accRev, c :: cs =>
    if c.isWhitespace && prevIsPunct accRev then
      accRev.reverse :: splitSentsGo fuel [] (cs.dropWhile Char.isWhitespace)
    else
      splitSentsGo fuel (c :: accRev) cs

/-- `re.split(r"(?<=[.!?])\s+", text)`. -/
def splitSents (s : Str) : List Str := splitSentsGo (s.length + 1) [] s

/-- Worker for `re.sub(r"!+", ".", s)`: a maximal run of `!` becomes a single
`.`; the flag records whether the previous character was part of a run. -/
def replaceBangsGo : Bool → Str → Str
  | _, [] => []
  | prevBang, c :: rest =>
    if c = '!' then
      if prevBang then replaceBangsGo true rest
      else '.' :: replaceBangsGo true rest
    else c :: replaceBangsGo false rest

/-- `re.sub(r"!+", ".", s)`. -/
def replaceBangs (s : Str) : Str := replaceBangsGo false s

/-- Case-insensitive literal match (re.IGNORECASE): returns the remainder of
`s` after the pattern when the pattern is a prefix of `s` up to case. -/
def matchPhraseCI : Str → Str → Option Str
  | [], s => some s
  | _ :: _, [] => none
  | p :: ps, c :: cs => if p.toLower = c.toLower then matchPhraseCI ps cs else none

/-- A `\w` word character (the phrases involved are ASCII). -/
def isWordChar (c : Char) : Bool := c.isAlphanum || c = '_'

/-- Word boundary `\b` holds before the current position: at the start of the
string or after a non-word character. -/
def prevNonWord (prev : Option Char) : Bool :=
  match prev with
  | none => true
  | some c => !isWordChar c

/-- The lazy tail `.*?(?:\.|$)` of the preachy patterns: consume up to and
including the first `.`, or up to the end of the string (regex `.` is
interpreted as matching any character and `$` as end of string). -/
def consumeLazyDot : Str → Str
  | [] => []
  | c :: rest => if c = '.' then rest else consumeLazyDot rest

/-- Does one preachy pattern `\b<phrase>\b.*?(?:\.|$)` match starting at the
current position (given the previous original character)?  On a match, return
the remainder of the string after the matched text. -/
def preachyMatchAt (phrase : Str) (prev : Option Char) (s : Str) : Option Str :=
  if prevNonWord prev then
    match matchPhraseCI phrase s with
    | none => none
    | some rest1 =>
      match rest1 with
      | [] => some []
      | c :: _ => if isWordChar c then none else some (consumeLazyDot rest1)
  else none

/-- Worker for `re.sub(pat, "", s)` with a preachy pattern: scan left to
right, deleting each non-overlapping match.  Matched text always ends with a
`.` when any input remains, so the boundary character after a deletion is `.`.
`fuel` is a termination device; every step consumes at least one character, so
`s.length + 1` always suffices. -/
def subPreachy (phrase : Str) : Nat → Option Char → Str → Str
  | 0, _, s => s
  | _ + 1, _, [] => []
  | fuel + 1, prev, c :: cs =>
    match preachyMatchAt phrase prev (c :: cs) with
    | some rest => subPreachy phrase fuel (some '.') rest
    | none => c :: subPreachy phrase fuel (some c) cs

/-- The five preachy phrases appearing in `preachy_patterns`. -/
def PREACHY_PHRASES : List Str :=
  [ "you should".toList,
    "remember to".toList,
    "make sure".toList,
    "be sure to".toList,
    "pro tip".toList ]

/-- The loop `for pat in preachy_patterns: cleaned = re.sub(pat, "", cleaned,
flags=re.IGNORECASE).strip()`. -/
def preachyAll (s : Str) : Str :=
  PREACHY_PHRASES.foldl (fun cur ph => strip (subPreachy ph (cur.length + 1) none cur)) s

/-- Does the string start with a whitespace character? -/
def headIsWS (s : Str) : Bool :=
  match s with
  | d :: _ => d.isWhitespace
  | [] => false

/-- Worker for `re.sub(r"\s{2,}", " ", s)`: a whitespace run of length at
least two becomes a single space; an isolated whitespace character is kept
as-is.  `fuel` as in `subPreachy`. -/
def collapseWSGo : Nat → Str → Str
  | 0, s => s
  | _ + 1, [] => []
  | fuel + 1, c :: cs =>
    if c.isWhitespace && headIsWS cs then
      ' ' :: collapseWSGo fuel (cs.dropWhile Char.isWhitespace)
    else
      c :: collapseWSGo fuel cs

/-- `re.sub(r"\s{2,}", " ", s)`. -/
def collapseWS (s : Str) : Str := collapseWSGo (s.length + 1) s

/-- `_sanitize_ack` (source lines 196-213): drop question-bearing sentences,
rewrite exclamation runs to periods, delete preachy clauses, collapse
whitespace, truncate to 280 characters. -/
def sanitize_ack (text : Str) : Str :=
  if text = [] then []
  else
    let parts := splitSents (strip text)
    let keep := parts.filter (fun p => !(p.any (fun c => c == '?')))
    let cleaned := strip (joinSep [' '] keep)
    let cleaned := replaceBangs cleaned
    let cleaned := preachyAll cleaned
    let cleaned := strip (collapseWS cleaned)
    cleaned.take 280

/-! ### `_regex_name_guess` -/

/-- Under `re.IGNORECASE` the classes `[A-Z]` and `[a-z]` both match any
ASCII letter, so the capture word `[A-Z][a-z]+` is a maximal run of at least
two letters.  Returns the word and the remainder. -/
def takeLetterWord (s : Str) : Option (Str × Str) :=
  let w := s.takeWhile Char.isAlpha
  if 2 ≤ w.length then some (w, s.drop w.length) else none

/-- One greedy repetition of `(?:\s+[A-Z][a-z]+)` (case-insensitive): consume
whitespace then a letter word, or consume nothing. -/
def tryRep (s : Str) : Str × Str :=
  let ws := s.takeWhile Char.isWhitespace
  if ws = [] then ([], s)
  else
    match takeLetterWord (s.drop ws.length) with
    | none => ([], s)
    | some (w, rest) => (ws ++ w, rest)

/-- The tail `\s+([A-Z][a-z]+(?:\s+[A-Z][a-z]+){0,2})` after one of the
keyword alternatives, returning the captured group. -/
def nameAfterKeyword (s : Str) : Option Str :=
  let ws := s.takeWhile Char.isWhitespace
  if ws = [] then none
  else
    match takeLetterWord (s.drop ws.length) with
    | none => none
    | some (w1, rest1) =>
      let p2 := tryRep rest1
      let p3 := tryRep p2.2
      some (w1 ++ p2.1 ++ p3.1)

/-- The keyword alternatives `my name is`, `i am`, `i'm` of the first
pattern. -/
def NAME_KEYWORDS : List Str :=
  [ "my name is".toList,
    "i am".toList,
    ['i', apos, 'm'] ]

/-- Try the three alternatives in order at the current position, each followed
by the capture tail. -/
def tryKeywords : List Str → Str → Option Str
  | [], _ => none
  | kw :: kws, s =>
    match matchPhraseCI kw s with
    | none => tryKeywords kws s
    | some rest =>
      match nameAfterKeyword rest with
      | none => tryKeywords kws s
      | some g => some g

/-- `re.search` for the first pattern: leftmost position wins, alternatives
tried in order at each position. -/
def regexNameSearch : Str → Option Str
  | [] => none
  | c :: cs =>
    match tryKeywords NAME_KEYWORDS (c :: cs) with
    | some g => some g
    | none => regexNameSearch cs

/-- Match of `\b([A-Z][a-z]{2,})\b` (no IGNORECASE) at the current position:
an uppercase letter, at least two lowercase letters, flanked by word
boundaries. -/
def capWordAt (prev : Option Char) (s : Str) : Option Str :=
  match s with
  | [] => none
  | c :: rest =>
    if prevNonWord prev && c.isUpper then
      let low := rest.takeWhile Char.isLower
      if 2 ≤ low.length &&
          (match rest.drop low.length with | [] => true | d :: _ => !isWordChar d) then
        some (c :: low)
      else none
    else none

/-- `re.search` for the second pattern, scanning left to right. -/
def capWordSearch (prev : Option Char) : Str → Option Str
  | [] => none
  | c :: cs =>
    match capWordAt prev (c :: cs) with
    | some g => some g
    | none => capWordSearch (some c) cs

/-- `_regex_name_guess` (source lines 216-223). -/
def regex_name_guess (text : Str) : Str :=
  match regexNameSearch text with
  | some g => strip g
  | none =>
    match capWordSearch none text with
    | some g => strip g
    | none => []

/-! ### Generation Adapter environment -/

/-- What one generation call site observes: the `client.chat.completions.create`
call raises, or it returns content on which `json.loads` (or field typing)
fails, or it returns the parsed fields.  Fields absent from the returned JSON
object are `none` (mirroring `dict.get`). -/
inductive GenOutcome (α : Type) where
  | raises
  | malformed
  | ok (val : α)
deriving DecidableEq, Repr

/-- The external world of one request: the configured-ness of the client
(`_model_available`), the outcome of the generation call at each call site,
the behavior of the markdown file write, and the `random.choice` draws.
The engine is deterministic given an `Env`. -/
structure Env where
  model_available : Bool
  /-- extract_driver_name: the `name` field. -/
  nameResp : GenOutcome (Option Str)
  /-- should_follow_up: the `should_follow_up` field. -/
  decisionResp : GenOutcome (Option Bool)
  /-- call_interviewer: the `ack` and `next_question` fields. -/
  interviewerResp : GenOutcome (Option Str × Option Str)
  /-- call_followup: the `next_question` field. -/
  followupResp : GenOutcome (Option Str)
  /-- call_followup_ack: the `ack` field. -/
  ackResp : GenOutcome (Option Str)
  /-- call_recap: the `title` and `recap` fields. -/
  recapResp : GenOutcome (Option Str × Option Str)
  /-- Whether the markdown file write in `_save_current_markdown` raises. -/
  save_raises : Bool
  /-- The timestamped filename produced by `_save_current_markdown`. -/
  filename : Str
  /-- `random.choice` draw for `pick_variant` in the `/answer` handler. -/
  rQuestion : Nat
  /-- `random.choice` draw for `pick_variant` inside `call_interviewer`. -/
  rInterviewer : Nat
  /-- `random.choice` draw for the prefix in `_preface_followup`. -/
  rPrefix : Nat
deriving Repr

/-! ### Generation Adapter callers -/

/-- `pick_variant` (source lines 252-254); `random.choice` embedded as
indexing by the draw modulo the list length. -/
def pick_variant (r : Nat) (stage_idx : Nat) : Str :=
  if stage_idx < STORYLINE.length then
    (stageAt stage_idx).variants.getD (r % (stageAt stage_idx).variants.length) []
  else []

/-- `re.sub(r"[^A-Za-z \-']", "", name)`: keep letters, spaces, hyphens and
apostrophes. -/
def cleanseName (name : Str) : Str :=
  name.filter (fun c => c.isAlpha || c = ' ' || c = '-' || c = apos)

/-- `extract_driver_name` (source lines 226-249).  The whole generation call
is inside the `try`, so both a raised exception and a malformed response fall
back to the regex guess. -/
def extract_driver_name (env : Env) (answer_text : Str) : Str :=
  if answer_text = [] then []
  else if env.model_available = false then regex_name_guess answer_text
  else
    match env.nameResp with
    | .raises => regex_name_guess answer_text
    | .malformed => regex_name_guess answer_text
    | .ok nameF => strip (cleanseName (strip (nameF.getD [])))

/-- The lowercased prefixes recognized by `_preface_followup`. -/
def PREFACE_STARTS : List Str :=
  [ "as a follow-up".toList,
    "as a follow up".toList,
    "quick follow-up".toList,
    "quick follow up".toList,
    "one quick follow-up".toList,
    "brief follow-up".toList,
    "just to stay on that thread".toList,
    "sticking with that for a second".toList ]

/-- `_preface_followup` (source lines 279-295). -/
def preface_followup (rPfx : Nat) (question : Str) : Str :=
  if question = [] then "As a follow-up, could you tell me more about that?".toList
  else
    let q := strip question
    if PREFACE_STARTS.any (fun s => List.isPrefixOf s (q.map Char.toLower)) then q
    else
      let pfx := FOLLOWUP_PREFIXES.getD (rPfx % FOLLOWUP_PREFIXES.length) []
      let q2 := match q with
                | c :: cs => if c.isAlpha then c.toLower :: cs else c :: cs
                | [] => []
      pfx ++ [' '] ++ q2

/-- The `except` fallback of `call_followup_ack`:
`snippet = answer_text.strip().split(".")[0][:60]`. -/
def fallbackSnippetAck (answer_text : Str) : Str :=
  let snippet := ((strip answer_text).takeWhile (fun c => c ≠ '.')).take 60
  sanitize_ack ("That note about ".toList ++ snippet ++ " has me interested.".toList)

/-- `call_followup_ack` (source lines 309-337).  The generation call is inside
the `try`; an empty `ack` field raises `ValueError` inside the same `try`.
Never raises. -/
def call_followup_ack (env : Env) (answer_text _upcoming_question : Str) : Str :=
  if env.model_available = false then
    let core := (joinSep [' '] (splitWS (strip answer_text))).take 60
    sanitize_ack ("That part about ".toList ++ core ++ " has me curious.".toList)
  else
    match env.ackResp with
    | .raises => fallbackSnippetAck answer_text
    | .malformed => fallbackSnippetAck answer_text
    | .ok ackF =>
      let ack := strip (ackF.getD [])
      if ack = [] then fallbackSnippetAck answer_text
      else sanitize_ack ack

/-- `should_follow_up` (source lines 339-356).  The generation call is inside
the `try`.  Never raises. -/
def should_follow_up (env : Env) (answer_text : Str) : Bool :=
  if env.model_available = false then 40 < (strip answer_text).length
  else
    match env.decisionResp with
    | .raises => false
    | .malformed => false
    | .ok b => b.getD false

/-- `call_interviewer` (source lines 358-373).  The generation call is inside
the `try`.  Never raises; returns `(ack, next_question)`. -/
def call_interviewer (env : Env) (_history : List Turn) (stage_idx : Nat) : Str × Str :=
  if env.model_available = false then
    ("Got it—thanks for sharing.".toList, pick_variant env.rInterviewer stage_idx)
  else
    match env.interviewerResp with
    | .raises => ("Thanks for sharing.".toList, pick_variant env.rInterviewer stage_idx)
    | .malformed => ("Thanks for sharing.".toList, pick_variant env.rInterviewer stage_idx)
    | .ok fields =>
      (sanitize_ack (fields.1.getD []),
       fields.2.getD (pick_variant env.rInterviewer stage_idx))

/-- `call_followup` (source lines 375-390).  The generation call at lines
379-384 is OUTSIDE the `try` block, which only wraps the JSON parsing: an
exception raised by the call itself propagates (`Except.error`), while a
malformed response is recovered by the fallback question. -/
def call_followup (env : Env) (_last_q _last_a : Str) : Except Unit Str :=
  if env.model_available = false then
    .ok "As a follow-up, what specific detail or feeling stands out from that moment?".toList
  else
    match env.followupResp with
    | .raises => .error ()
    | .malformed => .ok "As a follow-up, could you tell me more about that?".toList
    | .ok nq => .ok (preface_followup env.rPrefix (strip (nq.getD [])))

/-- The deterministic fallback recap body: `"\n\n".join(f"{q}\n{a}")`. -/
def recapFallbackBody (history : List Turn) : Str :=
  joinSep ['\n', '\n'] (history.map (fun t => t.q ++ ['\n'] ++ t.a))

/-- `call_recap` (source lines 403-422).  As in `call_followup`, the
generation call at lines 412-417 is OUTSIDE the `try` block: an exception
raised by the call propagates, while a malformed response is recovered. -/
def call_recap (env : Env) (history : List Turn) : Except Unit (Str × Str) :=
  if env.model_available = false then
    .ok ("Race Day Recap".toList, recapFallbackBody history)
  else
    match env.recapResp with
    | .raises => .error ()
    | .malformed => .ok ("Race Recap".toList, "Thanks for the interview!".toList)
    | .ok fields => .ok (fields.1.getD "Race Recap".toList, fields.2.getD [])

/-- `_save_current_markdown` (source lines 426-464): computes the recap (which
can raise when the model is configured), renders markdown and writes the file
(which can raise); returns the filename.  The name lookup and markdown
rendering raise nothing; the timestamped filename and the write outcome are
environment-chosen. -/
def save_current_markdown (env : Env) (state : SessionState) : Except Unit Str :=
  match call_recap env state.history with
  | .error e => .error e
  | .ok _ => if env.save_raises then .error () else .ok env.filename

/-! ### The request handlers -/

/-- The fields of the `/answer` JSON response that the engine controls
(`saved`, `filename` and `total_stages` are transport decoration and omitted). -/
inductive AnswerResult where
  | done (title recap : Str)
  | next (ack question : Str) (stage : Nat)
deriving DecidableEq, Repr

/-- The fresh session created by `ensure_state` / reset by `/start`
(source lines 907, 913-916). -/
def start_state : SessionState :=
  { stage := 0, history := [], followup_pending := false, driver_name := [] }

/-- Source lines 935-937: the question recorded for this turn.  The payload
question wins when non-empty; otherwise a random variant (`stage >= 0` is
vacuous over `Nat`); the explicit `variants[0]` fallback fires only when the
picked variant is empty AND the stage is in range. -/
def computeLastQ (env : Env) (stage : Nat) (shown_question : Str) : Str :=
  let lq := if shown_question ≠ [] then shown_question else pick_variant env.rQuestion stage
  if stage < STORYLINE.length ∧ lq = [] then (stageAt stage).variants.headD [] else lq

/-- Source lines 934-944: append the turn to history, then capture the driver
name on the intro stage when not already set.  Raises nothing
(`extract_driver_name` catches internally). -/
def recordPhase (env : Env) (st : SessionState) (user_answer last_q : Str) : SessionState :=
  let st1 := { st with history := st.history ++ [{ q := last_q, a := user_answer }] }
  if st.stage < STORYLINE.length ∧ (stageAt st.stage).id = "intro".toList
      ∧ st1.driver_name = [] then
    let name := extract_driver_name env user_answer
    if name ≠ [] then { st1 with driver_name := name } else st1
  else st1

/-- The terminal-check tail shared verbatim by Case 1 (lines 952-964) and
Case 3 (lines 984-995) of the `/answer` handler: at or past the last stage,
save the markdown and recompute the recap (both can raise, after the state
was already advanced); otherwise ask the next stage's question. -/
def finishOrAsk (env : Env) (st : SessionState) (next_stage : Nat) :
    SessionState × Except Unit AnswerResult :=
  if STORYLINE.length ≤ next_stage then
    match save_current_markdown env st with
    | .error e => (st, .error e)
    | .ok _ =>
      match call_recap env st.history with
      | .error e => (st, .error e)
      | .ok rc => (st, .ok (AnswerResult.done rc.1 rc.2))
  else
    let result := call_interviewer env st.history next_stage
    (st, .ok (AnswerResult.next result.1 result.2 next_stage))

/-- The `/answer` handler (source lines 923-995).  The returned state is the
session dict as left in `SESSIONS` — also on the error path, since a Python
exception does not undo the mutations already performed. -/
def answer (env : Env) (st : SessionState) (payloadAnswer payloadQuestion : Str) :
    SessionState × Except Unit AnswerResult :=
  let user_answer := strip payloadAnswer
  let shown_question := strip payloadQuestion
  let stage := st.stage
  let allow_followup := stage < STORYLINE.length - 3
  let last_q := computeLastQ env stage shown_question
  let st2 := recordPhase env st user_answer last_q
  -- Case 1: replying to a follow-up -> advance storyline
  if st.followup_pending then
    finishOrAsk env { st2 with followup_pending := false, stage := stage + 1 } (stage + 1)
  -- Case 2: decide semantically whether to follow up
  else if allow_followup ∧ should_follow_up env user_answer = true then
    match call_followup env last_q user_answer with
    | .error e => (st2, .error e)
    | .ok follow_q =>
      let st3 := { st2 with followup_pending := true }
      let ack_line := call_followup_ack env user_answer follow_q
      (st3, .ok (AnswerResult.next ack_line follow_q stage))
  -- Case 3: no follow-up -> move to next main stage
  else
    finishOrAsk env { st2 with stage := stage + 1, followup_pending := false } (stage + 1)

/-- The `/finish` handler `finish_now` (source lines 999-1005): save and
recap (either can raise, leaving the state untouched), then clear the pending
flag.  The stage field is never written. -/
def finish_now (env : Env) (st : SessionState) :
    SessionState × Except Unit (Str × Str) :=
  match save_current_markdown env st with
  | .error e => (st, .error e)
  | .ok _ =>
    match call_recap env st.history with
    | .error e => (st, .error e)
    | .ok rc => ({ st with followup_pending := false }, .ok rc)

/-- Session states reachable through the exposed operations: creation/start
(and reset, which deletes and recreates on next contact), `/answer`, and
`/finish`. -/
inductive Reachable : SessionState → Prop where
  | init : Reachable start_state
  | step {s : SessionState} (env : Env) (pa pq : Str) :
      Reachable s → Reachable (answer env s pa pq).1
  | finish {s : SessionState} (env : Env) :
      Reachable s → Reachable (finish_now env s).1

/-- One `/answer` request's inputs. -/
structure AnswerInput where
  env : Env
  pa : Str
  pq : Str

/-- The session states visited by a sequence of `/answer` requests. -/
def runTrace (st : SessionState) : List AnswerInput → List SessionState
  | [] => []
  | i :: is =>
    let st' := (answer i.env st i.pa i.pq).1
    st' :: runTrace st' is

/-! ### Structural lemmas about the handlers -/

/-- `finishOrAsk` never mutates the state it is given. -/
lemma finishOrAsk_fst (env : Env) (st : SessionState) (n : Nat) :
    (finishOrAsk env st n).1 = st := by
  unfold finishOrAsk
  split
  · cases save_current_markdown env st with
    | error e => rfl
    | ok fn =>
      cases call_recap env st.history with
      | error e => rfl
      | ok rc => rfl
  · rfl

/-- `finish_now` either leaves the state unchanged (failure) or only clears
the pending flag (success). -/
lemma finish_now_fst (env : Env) (st : SessionState) :
    (finish_now env st).1 = st ∨
      (finish_now env st).1 = { st with followup_pending := false } := by
  unfold finish_now
  cases save_current_markdown env st with
  | error e => exact .inl rfl
  | ok fn =>
    cases call_recap env st.history with
    | error e => exact .inl rfl
    | ok rc => exact .inr rfl

lemma recordPhase_stage (env : Env) (st : SessionState) (ua lq : Str) :
    (recordPhase env st ua lq).stage = st.stage := by
  unfold recordPhase
  dsimp only
  split
  · split <;> rfl
  · rfl

lemma recordPhase_pending (env : Env) (st : SessionState) (ua lq : Str) :
    (recordPhase env st ua lq).followup_pending = st.followup_pending := by
  unfold recordPhase
  dsimp only
  split
  · split <;> rfl
  · rfl

lemma recordPhase_history (env : Env) (st : SessionState) (ua lq : Str) :
    (recordPhase env st ua lq).history = st.history ++ [{ q := lq, a := ua }] := by
  unfold recordPhase
  dsimp only
  split
  · split <;> rfl
  · rfl

/-- `recordPhase` in the tail of the catalog (including past it) never touches
the driver name, so it is exactly the history append. -/
lemma recordPhase_of_out_of_range (env : Env) (st : SessionState) (ua lq : Str)
    (h : STORYLINE.length ≤ st.stage) :
    recordPhase env st ua lq = { st with history := st.history ++ [{ q := lq, a := ua }] } := by
  unfold recordPhase
  dsimp only
  rw [if_neg]
  intro hc
  exact absurd hc.1 (not_lt.mpr h)

/-- Exhaustive description of the state left by one `/answer` request: either
the stage advanced by one with the pending flag cleared (Cases 1 and 3), or —
only from a non-pending state inside the eligibility window — the pending flag
was set with the stage unchanged (Case 2), or only the record phase happened
(Case 2 with `call_followup` raising). -/
lemma answer_fst_cases (env : Env) (st : SessionState) (pa pq : Str) :
    (answer env st pa pq).1
        = { recordPhase env st (strip pa) (computeLastQ env st.stage (strip pq)) with
            followup_pending := false, stage := st.stage + 1 } ∨
    (st.followup_pending = false ∧ st.stage < STORYLINE.length - 3 ∧
      ((answer env st pa pq).1
          = { recordPhase env st (strip pa) (computeLastQ env st.stage (strip pq)) with
              followup_pending := true } ∨
       (answer env st pa pq).1
          = recordPhase env st (strip pa) (computeLastQ env st.stage (strip pq)))) := by
  unfold answer
  dsimp only
  by_cases h : st.followup_pending = true
  · rw [if_pos h, finishOrAsk_fst]
    exact .inl rfl
  · rw [if_neg h]
    by_cases h2 : st.stage < STORYLINE.length - 3 ∧ should_follow_up env (strip pa) = true
    · rw [if_pos h2]
      cases hcf : call_followup env (computeLastQ env st.stage (strip pq)) (strip pa) with
      | error e =>
        exact .inr ⟨Bool.not_eq_true _ ▸ h, h2.1, .inr rfl⟩
      | ok follow_q =>
        exact .inr ⟨Bool.not_eq_true _ ▸ h, h2.1, .inl rfl⟩
    · rw [if_neg h2, finishOrAsk_fst]
      exact .inl rfl

/-- Every `/answer` request appends exactly one turn to the history — also
when it ends in an exception. -/
lemma answer_history (env : Env) (st : SessionState) (pa pq : Str) :
    (answer env st pa pq).1.history
      = st.history ++ [{ q := computeLastQ env st.stage (strip pq), a := strip pa }] := by
  rcases answer_fst_cases env st pa pq with h | ⟨_, _, h | h⟩ <;>
    rw [h] <;> simp [recordPhase_history]

/-- The stage either advances by one or stays put. -/
lemma answer_stage_eq (env : Env) (st : SessionState) (pa pq : Str) :
    (answer env st pa pq).1.stage = st.stage + 1 ∨
      (answer env st pa pq).1.stage = st.stage := by
  rcases answer_fst_cases env st pa pq with h | ⟨_, _, h | h⟩ <;> rw [h]
  · exact .inl rfl
  · exact .inr (recordPhase_stage env st _ _)
  · exact .inr (recordPhase_stage env st _ _)

/-- The stage never decreases across one `/answer` request. -/
lemma answer_stage_mono (env : Env) (st : SessionState) (pa pq : Str) :
    st.stage ≤ (answer env st pa pq).1.stage := by
  rcases answer_stage_eq env st pa pq with h | h <;> omega

/-- The pending flag can only come out true from Case 2, which requires the
eligibility window and leaves the stage unchanged. -/
lemma answer_pending_imp (env : Env) (st : SessionState) (pa pq : Str)
    (h : (answer env st pa pq).1.followup_pending = true) :
    st.stage < STORYLINE.length - 3 ∧ (answer env st pa pq).1.stage = st.stage := by
  rcases answer_fst_cases env st pa pq with hc | ⟨hfp, hlt, hc | hc⟩
  · rw [hc] at h; simp at h
  · exact ⟨hlt, by rw [hc]; exact recordPhase_stage env st _ _⟩
  · rw [hc, recordPhase_pending, hfp] at h; simp at h

/-- Outside the eligibility window the request always takes the advance path
(Case 1 or Case 3). -/
lemma answer_tail_exact (env : Env) (st : SessionState) (pa pq : Str)
    (h : ¬ st.stage < STORYLINE.length - 3) :
    (answer env st pa pq).1
      = { recordPhase env st (strip pa) (computeLastQ env st.stage (strip pq)) with
          followup_pending := false, stage := st.stage + 1 } := by
  rcases answer_fst_cases env st pa pq with hc | ⟨_, hlt, _⟩
  · exact hc
  · exact absurd hlt h

/-- `finish_now` can only leave the pending flag set if it was set before,
and it never changes the stage. -/
lemma finish_now_pending_imp (env : Env) (st : SessionState)
    (h : (finish_now env st).1.followup_pending = true) :
    st.followup_pending = true ∧ (finish_now env st).1.stage = st.stage := by
  rcases finish_now_fst env st with hf | hf
  · rw [hf] at h ⊢; exact ⟨h, rfl⟩
  · rw [hf] at h; simp at h

/-- The single-pending invariant: in every reachable session state, a set
pending flag implies the stage is inside the eligibility window. -/
lemma reachable_pending_lt {s : SessionState} (hs : Reachable s) :
    s.followup_pending = true → s.stage < STORYLINE.length - 3 := by
  induction hs with
  | init => intro h; simp [start_state] at h
  | step env pa pq hr ih =>
    intro h
    rcases answer_pending_imp env _ _ _ h with ⟨hlt, hstg⟩
    rw [hstg]
    exact hlt
  | finish env hr =>
    rename_i ih
    intro h
    rcases finish_now_pending_imp env _ h with ⟨hp, hstg⟩
    rw [hstg]
    exact ih hp

/-- Every state in a trace has stage at least the starting stage. -/
lemma runTrace_stage_ge (inputs : List AnswerInput) :
    ∀ (st : SessionState), ∀ x ∈ runTrace st inputs, st.stage ≤ x.stage := by
  induction inputs with
  | nil => intro st x hx; simp [runTrace] at hx
  | cons i is ih =>
    intro st x hx
    simp only [runTrace] at hx
    rcases List.mem_cons.mp hx with rfl | hx'
    · exact answer_stage_mono i.env st i.pa i.pq
    · exact le_trans (answer_stage_mono i.env st i.pa i.pq) (ih _ x hx')

/-- At or past the terminal stage, a further `/answer` still advances the
stage by exactly one. -/
lemma answer_stage_of_terminal (env : Env) (st : SessionState) (pa pq : Str)
    (h : STORYLINE.length ≤ st.stage) :
    (answer env st pa pq).1.stage = st.stage + 1 := by
  have hN : STORYLINE.length = 9 := rfl
  rw [answer_tail_exact env st pa pq (by omega)]

/-- At or past the terminal stage, the `/answer` request reduces to the pure
record-and-advance transition. -/
lemma answer_terminal_exact (env : Env) (st : SessionState) (pa pq : Str)
    (h : STORYLINE.length ≤ st.stage) :
    (answer env st pa pq).1
      = { st with
          history := st.history
            ++ [{ q := computeLastQ env st.stage (strip pq), a := strip pa }],
          stage := st.stage + 1, followup_pending := false } := by
  have hN : STORYLINE.length = 9 := rfl
  rw [answer_tail_exact env st pa pq (by omega),
    recordPhase_of_out_of_range env st _ _ h]

/-- Along any trace of `/answer` requests, the stage equals the terminal
value `N = STORYLINE.length` at most once. -/
lemma trace_count_terminal (inputs : List AnswerInput) :
    ∀ st : SessionState,
      ((st :: runTrace st inputs).countP
        (fun x => x.stage == STORYLINE.length)) ≤ 1 := by
  induction inputs with
  | nil =>
    intro st
    simp only [runTrace, List.countP_cons, List.countP_nil]
    split <;> omega
  | cons i is ih =>
    intro st
    have hrt : runTrace st (i :: is)
        = (answer i.env st i.pa i.pq).1
            :: runTrace (answer i.env st i.pa i.pq).1 is := by
      simp [runTrace]
    rw [List.countP_cons, hrt]
    by_cases hp : st.stage = STORYLINE.length
    · have h1 : (answer i.env st i.pa i.pq).1.stage = st.stage + 1 :=
        answer_stage_of_terminal _ _ _ _ (le_of_eq hp.symm)
      have hzero :
          (((answer i.env st i.pa i.pq).1
              :: runTrace (answer i.env st i.pa i.pq).1 is).countP
            (fun x => x.stage == STORYLINE.length)) = 0 := by
        rw [List.countP_eq_zero]
        intro a ha
        rcases List.mem_cons.mp ha with rfl | ha'
        · simp only [beq_iff_eq]
          omega
        · have hge := runTrace_stage_ge is _ a ha'
          simp only [beq_iff_eq]
          omega
      rw [hzero]
      simp [hp]
    · have htail := ih (answer i.env st i.pa i.pq).1
      have hhead : (st.stage == STORYLINE.length) = false := by
        simp [beq_iff_eq, hp]
      rw [hhead]
      simpa using htail

/-! ### Character-membership lemmas about the sanitizer pipeline -/

lemma mem_of_strip {s : Str} {c : Char} (h : c ∈ strip s) : c ∈ s := by
  unfold strip at h
  rw [List.mem_reverse] at h
  have h2 : c ∈ (s.dropWhile Char.isWhitespace).reverse :=
    (List.dropWhile_sublist _).subset h
  rw [List.mem_reverse] at h2
  exact (List.dropWhile_sublist _).subset h2

lemma mem_of_joinSep {sep : Str} {l : List Str} {c : Char} (h : c ∈ joinSep sep l) :
    c ∈ sep ∨ ∃ p ∈ l, c ∈ p := by
  induction l with
  | nil => simp [joinSep] at h
  | cons x xs ih =>
    cases xs with
    | nil =>
      have he : joinSep sep [x] = x := rfl
      rw [he] at h
      exact .inr ⟨x, List.mem_cons_self x [], h⟩
    | cons y ys =>
      have he : joinSep sep (x :: y :: ys) = x ++ sep ++ joinSep sep (y :: ys) := rfl
      rw [he] at h
      rcases List.mem_append.mp h with h1 | h1
      · rcases List.mem_append.mp h1 with h2 | h2
        · exact .inr ⟨x, List.mem_cons_self x (y :: ys), h2⟩
        · exact .inl h2
      · rcases ih h1 with h3 | ⟨p, hp, hcp⟩
        · exact .inl h3
        · exact .inr ⟨p, List.mem_cons_of_mem x hp, hcp⟩

lemma replaceBangsGo_no_bang : ∀ (b : Bool) (s : Str), '!' ∉ replaceBangsGo b s := by
  intro b s
  induction s generalizing b with
  | nil => simp [replaceBangsGo]
  | cons a as ih =>
    rw [replaceBangsGo]
    by_cases ha : a = '!'
    · rw [if_pos ha]
      cases b with
      | true => exact ih true
      | false =>
        intro hc
        rcases List.mem_cons.mp hc with hc' | hc'
        · exact absurd hc'.symm (by decide)
        · exact ih true hc'
    · rw [if_neg ha]
      intro hc
      rcases List.mem_cons.mp hc with hc' | hc'
      · exact ha hc'.symm
      · exact ih false hc'

lemma replaceBangsGo_mem : ∀ (b : Bool) (s : Str) (c : Char),
    c ∈ replaceBangsGo b s → c = '.' ∨ c ∈ s := by
  intro b s
  induction s generalizing b with
  | nil => intro c hc; simp [replaceBangsGo] at hc
  | cons a as ih =>
    intro c hc
    rw [replaceBangsGo] at hc
    by_cases ha : a = '!'
    · rw [if_pos ha] at hc
      cases b with
      | true =>
        rcases ih true c hc with h | h
        · exact .inl h
        · exact .inr (List.mem_cons_of_mem a h)
      | false =>
        rcases List.mem_cons.mp hc with rfl | hc'
        · exact .inl rfl
        · rcases ih true c hc' with h | h
          · exact .inl h
          · exact .inr (List.mem_cons_of_mem a h)
    · rw [if_neg ha] at hc
      rcases List.mem_cons.mp hc with rfl | hc'
      · exact .inr (List.mem_cons_self c as)
      · rcases ih false c hc' with h | h
        · exact .inl h
        · exact .inr (List.mem_cons_of_mem a h)

lemma matchPhraseCI_subset : ∀ (p s r : Str), matchPhraseCI p s = some r →
    ∀ c ∈ r, c ∈ s := by
  intro p
  induction p with
  | nil =>
    intro s r h c hc
    rw [matchPhraseCI] at h
    cases h
    exact hc
  | cons a as ih =>
    intro s r h c hc
    cases s with
    | nil => rw [matchPhraseCI] at h; cases h
    | cons b bs =>
      rw [matchPhraseCI] at h
      split at h
      · exact List.mem_cons_of_mem b (ih bs r h c hc)
      · cases h

lemma consumeLazyDot_subset : ∀ (s : Str), ∀ c ∈ consumeLazyDot s, c ∈ s := by
  intro s
  induction s with
  | nil => intro c hc; simp [consumeLazyDot] at hc
  | cons a as ih =>
    intro c hc
    rw [consumeLazyDot] at hc
    split at hc
    · exact List.mem_cons_of_mem a hc
    · exact List.mem_cons_of_mem a (ih c hc)

lemma preachyMatchAt_subset (phrase : Str) (prev : Option Char) (s r : Str)
    (h : preachyMatchAt phrase prev s = some r) : ∀ c ∈ r, c ∈ s := by
  unfold preachyMatchAt at h
  split at h
  · split at h
    · cases h
    · rename_i rest1 hm
      split at h
      · cases h
        intro c hc
        cases hc
      · split at h
        · cases h
        · cases h
          intro c hc
          exact matchPhraseCI_subset phrase s _ hm c (consumeLazyDot_subset _ c hc)
  · cases h

lemma subPreachy_subset (phrase : Str) : ∀ (fuel : Nat) (prev : Option Char) (s : Str),
    ∀ c ∈ subPreachy phrase fuel prev s, c ∈ s := by
  intro fuel
  induction fuel with
  | zero => intro prev s c hc; rw [subPreachy] at hc; exact hc
  | succ n ih =>
    intro prev s c hc
    cases s with
    | nil => rw [subPreachy] at hc; cases hc
    | cons a as =>
      rw [subPreachy] at hc
      cases hm : preachyMatchAt phrase prev (a :: as) with
      | some rest =>
        rw [hm] at hc
        exact preachyMatchAt_subset _ _ _ _ hm c (ih _ rest c hc)
      | none =>
        rw [hm] at hc
        rcases List.mem_cons.mp hc with rfl | hc'
        · exact List.mem_cons_self c as
        · exact List.mem_cons_of_mem a (ih _ as c hc')

lemma preachyAll_subset (s : Str) : ∀ c ∈ preachyAll s, c ∈ s := by
  unfold preachyAll
  generalize PREACHY_PHRASES = phs
  induction phs generalizing s with
  | nil => intro c h; exact h
  | cons p ps ih =>
    intro c h
    rw [List.foldl_cons] at h
    exact subPreachy_subset p _ none s c (mem_of_strip (ih _ c h))

lemma collapseWSGo_mem : ∀ (fuel : Nat) (s : Str) (c : Char),
    c ∈ collapseWSGo fuel s → c = ' ' ∨ c ∈ s := by
  intro fuel
  induction fuel with
  | zero => intro s c hc; exact .inr hc
  | succ n ih =>
    intro s c hc
    cases s with
    | nil => cases hc
    | cons a as =>
      rw [show collapseWSGo (n + 1) (a :: as)
          = if a.isWhitespace && headIsWS as then
              ' ' :: collapseWSGo n (as.dropWhile Char.isWhitespace)
            else a :: collapseWSGo n as from rfl] at hc
      split at hc
      · rcases List.mem_cons.mp hc with rfl | hc'
        · exact .inl rfl
        · rcases ih _ c hc' with h | h
          · exact .inl h
          · exact .inr (List.mem_cons_of_mem a ((List.dropWhile_sublist _).subset h))
      · rcases List.mem_cons.mp hc with rfl | hc'
        · exact .inr (List.mem_cons_self c as)
        · rcases ih _ c hc' with h | h
          · exact .inl h
          · exact .inr (List.mem_cons_of_mem a h)

/-- The kept parts of the sanitizer contain no question mark, hence neither
does their joined-and-stripped concatenation. -/
lemma sanitize_joined_no_q (t : Str) :
    '?' ∉ strip (joinSep [' ']
      ((splitSents t).filter (fun p => !(p.any (fun c => c == '?'))))) := by
  intro h
  rcases mem_of_joinSep (mem_of_strip h) with h1 | ⟨p, hp, hcp⟩
  · simp at h1
  · rcases List.mem_filter.mp hp with ⟨_, hkeep⟩
    rw [Bool.not_eq_true'] at hkeep
    have : p.any (fun c => c == '?') = true :=
      List.any_eq_true.mpr ⟨'?', hcp, by simp⟩
    rw [hkeep] at this
    cases this

/-- The central sanitizer guarantee: length at most 280, no question mark, no
exclamation mark. -/
lemma sanitize_ack_props (text : Str) :
    (sanitize_ack text).length ≤ 280 ∧
      '?' ∉ sanitize_ack text ∧ '!' ∉ sanitize_ack text := by
  by_cases ht : text = []
  · simp [sanitize_ack, ht]
  · unfold sanitize_ack
    rw [if_neg ht]
    dsimp only
    refine ⟨List.length_take_le _ _, ?_, ?_⟩
    all_goals intro hmem
    all_goals have hD := mem_of_strip (List.take_subset _ _ hmem)
    all_goals rcases collapseWSGo_mem _ _ _ hD with h | hC
    · cases h
    · have hB := preachyAll_subset _ _ hC
      rcases replaceBangsGo_mem false _ _ hB with h | hA
      · cases h
      · exact sanitize_joined_no_q (strip text) hA
    · cases h
    · have hB := preachyAll_subset _ _ hC
      exact replaceBangsGo_no_bang false _ hB

/-! ### Ordered containment of the recap fallback body -/

/-- `chainIn ps s`: the strings `ps` all occur in `s` as disjoint contiguous
substrings, in the given order. -/
def chainIn : List Str → Str → Prop
  | [], _ => True
  | p :: ps, s => ∃ pre rest, s = pre ++ p ++ rest ∧ chainIn ps rest

/-- The interleaved question and answer texts of a history, in order. -/
def interleaveQA (history : List Turn) : List Str :=
  history.flatMap (fun t => [t.q, t.a])

lemma chainIn_extend_left (t : Str) : ∀ {ps : List Str} {s : Str},
    chainIn ps s → chainIn ps (t ++ s)
  | [], _, _ => trivial
  | p :: ps, s, ⟨pre, rest, heq, hrest⟩ =>
    ⟨t ++ pre, rest, by rw [heq]; simp [List.append_assoc], hrest⟩

lemma chainIn_concat : ∀ {l1 : List Str} {s1 : Str} {l2 : List Str} {s2 : Str},
    chainIn l1 s1 → chainIn l2 s2 → chainIn (l1 ++ l2) (s1 ++ s2) := by
  intro l1
  induction l1 with
  | nil =>
    intro s1 l2 s2 h1 h2
    simpa using chainIn_extend_left s1 h2
  | cons p ps ih =>
    intro s1 l2 s2 h1 h2
    obtain ⟨pre, rest, heq, hrest⟩ := h1
    exact ⟨pre, rest ++ s2, by rw [heq]; simp [List.append_assoc], ih hrest h2⟩

lemma chainIn_pair (q a sep : Str) : chainIn [q, a] (q ++ sep ++ a) :=
  ⟨[], sep ++ a, by simp [List.append_assoc], sep, [], by simp, trivial⟩

/-- The fallback recap body contains every question and every answer of the
history, in order. -/
lemma recapFallback_chain (history : List Turn) :
    chainIn (interleaveQA history) (recapFallbackBody history) := by
  induction history with
  | nil => trivial
  | cons t ts ih =>
    cases ts with
    | nil =>
      have h : chainIn [t.q, t.a] (t.q ++ ['\n'] ++ t.a) := chainIn_pair _ _ _
      simpa [interleaveQA, recapFallbackBody, joinSep] using h
    | cons u us =>
      have h1 : chainIn [t.q, t.a] (t.q ++ ['\n'] ++ t.a) := chainIn_pair _ _ _
      have h2 := chainIn_extend_left ['\n', '\n'] ih
      have h3 := chainIn_concat h1 h2
      have hbody : recapFallbackBody (t :: u :: us)
          = (t.q ++ ['\n'] ++ t.a) ++ (['\n', '\n'] ++ recapFallbackBody (u :: us)) := by
        simp [recapFallbackBody, joinSep, List.append_assoc]
      rw [hbody]
      simpa [interleaveQA] using h3

deriving instance DecidableEq for Except

/-! ### Concrete environments and states used by witnesses and
counterexamples -/

/-- A fully unconfigured collaborator (`_model_available()` false): every
deterministic fallback fires and the file write succeeds. -/
def demoEnvNoModel : Env :=
  { model_available := false, nameResp := .malformed, decisionResp := .malformed,
    interviewerResp := .malformed, followupResp := .malformed, ackResp := .malformed,
    recapResp := .malformed, save_raises := false, filename := [],
    rQuestion := 0, rInterviewer := 0, rPrefix := 0 }

/-- A configured collaborator whose classification call answers
`{"should_follow_up": true}` while every other generation call raises. -/
def demoEnvRaise : Env :=
  { model_available := true, nameResp := .raises, decisionResp := .ok (some true),
    interviewerResp := .raises, followupResp := .raises, ackResp := .raises,
    recapResp := .raises, save_raises := false, filename := [],
    rQuestion := 0, rInterviewer := 0, rPrefix := 0 }

/-- A configured collaborator all of whose generation calls return content
that fails to parse. -/
def demoEnvMalformed : Env :=
  { demoEnvNoModel with model_available := true }

/-- The unconfigured environment with the question draw landing on the second
variant. -/
def demoEnvR1 : Env := { demoEnvNoModel with rQuestion := 1 }

/-- An answer longer than 40 characters, so the length-heuristic oracle
triggers a follow-up. -/
def longAnswer : Str :=
  "I struggled with understeer through the long left-hand sweeper all afternoon".toList

/-- One no-model `/answer` step with a short answer. -/
def stepNoModel (s : SessionState) : SessionState :=
  (answer demoEnvNoModel s "ok".toList "Q".toList).1

/-- The session after nine short-answer turns: the natural terminal state. -/
def sNine : SessionState :=
  stepNoModel (stepNoModel (stepNoModel (stepNoModel (stepNoModel
    (stepNoModel (stepNoModel (stepNoModel (stepNoModel start_state))))))))

/-! ### C1 -/

/-- C1 counterexample: with the collaborator configured and the classification
call answering true, an exception raised by the generation call inside
`call_followup` escapes `call_followup` itself and propagates out of the
`/answer` request handler, contradicting the claim that no exception passes
the Generation Adapter boundary. -/
theorem C1_counterexample :
    call_followup demoEnvRaise [] [] = Except.error () ∧
    (answer demoEnvRaise start_state "hi".toList "Q".toList).2 = Except.error () := by
  exact ⟨by decide, by decide⟩

/-- C1 (amended): every caller recovers a malformed generation response with
its deterministic fallback, and the name-extraction, follow-up-classification,
interviewer-turn and follow-up-acknowledgment callers recover a raised
exception the same way; but in `call_followup` and `call_recap` the
generation call sits outside the `try` block, so an exception raised by the
call itself propagates to the request handler. -/
theorem C1_amended (env : Env) (h : env.model_available = true) :
    ((env.nameResp = .raises ∨ env.nameResp = .malformed) →
      ∀ t, extract_driver_name env t = if t = [] then [] else regex_name_guess t) ∧
    ((env.decisionResp = .raises ∨ env.decisionResp = .malformed) →
      ∀ t, should_follow_up env t = false) ∧
    ((env.interviewerResp = .raises ∨ env.interviewerResp = .malformed) →
      ∀ hist i, call_interviewer env hist i
        = ("Thanks for sharing.".toList, pick_variant env.rInterviewer i)) ∧
    ((env.ackResp = .raises ∨ env.ackResp = .malformed) →
      ∀ a u, call_followup_ack env a u = fallbackSnippetAck a) ∧
    (env.followupResp = .malformed →
      ∀ q a, call_followup env q a
        = .ok "As a follow-up, could you tell me more about that?".toList) ∧
    (env.recapResp = .malformed →
      ∀ hist, call_recap env hist
        = .ok ("Race Recap".toList, "Thanks for the interview!".toList)) ∧
    (env.followupResp = .raises → ∀ q a, call_followup env q a = .error ()) ∧
    (env.recapResp = .raises → ∀ hist, call_recap env hist = .error ()) := by
  refine ⟨?_, ?_, ?_, ?_, ?_, ?_, ?_, ?_⟩
  · rintro (hr | hr) t <;> simp [extract_driver_name, h, hr]
  · rintro (hr | hr) t <;> simp [should_follow_up, h, hr]
  · rintro (hr | hr) hist i <;> simp [call_interviewer, h, hr]
  · rintro (hr | hr) a u <;> simp [call_followup_ack, h, hr]
  · intro hr q a; simp [call_followup, h, hr]
  · intro hr hist; simp [call_recap, h, hr]
  · intro hr q a; simp [call_followup, h, hr]
  · intro hr hist; simp [call_recap, h, hr]

/-- C1 witness: the amended statement at the all-malformed environment. -/
theorem C1_witness :
    should_follow_up demoEnvMalformed "anything".toList = false ∧
    call_recap demoEnvMalformed []
      = .ok ("Race Recap".toList, "Thanks for the interview!".toList) := by
  have h := C1_amended demoEnvMalformed rfl
  exact ⟨h.2.1 (.inr rfl) _, h.2.2.2.2.2.1 rfl []⟩

/-! ### C2 -/

/-- C2 counterexample: `finish_now` on the fresh session (stage 0, a
non-terminal state) returns done with title and recap but leaves the stage at
0 — the session is never moved to the terminal stage `N = 9`. -/
theorem C2_counterexample :
    (finish_now demoEnvNoModel start_state).2
        = Except.ok ("Race Day Recap".toList, []) ∧
    (finish_now demoEnvNoModel start_state).1.stage = 0 ∧
    (finish_now demoEnvNoModel start_state).1.stage ≠ STORYLINE.length := by
  exact ⟨by decide, by decide, by decide⟩

/-- C2 (amended): `finishNow` computes and returns the recap artifact from
the history accumulated so far and, on success, clears the pending flag — but
it never changes the stage (or the history), so the session is not
transitioned to the terminal `COMPLETE` stage index. -/
theorem C2_amended (env : Env) (st : SessionState) :
    (finish_now env st).1.stage = st.stage ∧
    (finish_now env st).1.history = st.history ∧
    ((finish_now env st).2 ≠ Except.error () →
      (finish_now env st).1.followup_pending = false) ∧
    (env.model_available = false → env.save_raises = false →
      finish_now env st
        = ({ st with followup_pending := false },
           Except.ok ("Race Day Recap".toList, recapFallbackBody st.history))) := by
  have hfst := finish_now_fst env st
  refine ⟨?_, ?_, ?_, ?_⟩
  · rcases hfst with hf | hf <;> rw [hf]
  · rcases hfst with hf | hf <;> rw [hf]
  · intro hne
    unfold finish_now at hne ⊢
    cases hs : save_current_markdown env st with
    | error e => rw [hs] at hne; dsimp only at hne; cases e; exact absurd rfl hne
    | ok fn =>
      rw [hs] at hne
      dsimp only at hne ⊢
      cases hr : call_recap env st.history with
      | error e => rw [hr] at hne; dsimp only at hne; cases e; exact absurd rfl hne
      | ok rc => rfl
  · intro hm hsv
    simp [finish_now, save_current_markdown, call_recap, hm, hsv]

/-- C2 witness: the amended statement at the unconfigured environment and the
fresh session. -/
theorem C2_witness :
    (finish_now demoEnvNoModel start_state).1.stage = start_state.stage ∧
    finish_now demoEnvNoModel start_state
      = ({ start_state with followup_pending := false },
         Except.ok ("Race Day Recap".toList, recapFallbackBody start_state.history)) := by
  have h := C2_amended demoEnvNoModel start_state
  exact ⟨h.1, h.2.2.2 rfl rfl⟩

/-! ### C3 -/

/-- C3 counterexample: after nine submissions the session sits at the
terminal stage 9, yet a tenth submission is neither rejected (it succeeds)
nor a no-op (it appends a turn and pushes the stage to 10). -/
theorem C3_counterexample :
    sNine.stage = STORYLINE.length ∧
    (answer demoEnvNoModel sNine "ok".toList "Q".toList).2 ≠ Except.error () ∧
    (answer demoEnvNoModel sNine "ok".toList "Q".toList).1 ≠ sNine ∧
    (answer demoEnvNoModel sNine "ok".toList "Q".toList).1.stage = 10 := by
  exact ⟨by decide, by decide, by decide, by decide⟩

/-- C3 (amended): the stage never decreases and equals the terminal value
`N = STORYLINE.length` at most once along any sequence of submissions; but
submissions made at or past the terminal value are neither rejected nor
no-ops — each still appends its turn and pushes the stage further past `N`. -/
theorem C3_amended :
    (∀ (env : Env) (st : SessionState) (pa pq : Str),
      st.stage ≤ (answer env st pa pq).1.stage) ∧
    (∀ (st : SessionState) (inputs : List AnswerInput),
      ((st :: runTrace st inputs).countP
        (fun x => x.stage == STORYLINE.length)) ≤ 1) ∧
    (∀ (env : Env) (st : SessionState) (pa pq : Str),
      STORYLINE.length ≤ st.stage →
      (answer env st pa pq).1
        = { st with
            history := st.history
              ++ [{ q := computeLastQ env st.stage (strip pq), a := strip pa }],
            stage := st.stage + 1, followup_pending := false }) :=
  ⟨answer_stage_mono, fun st inputs => trace_count_terminal inputs st,
   answer_terminal_exact⟩

/-- C3 witness: the amended statement applied at the terminal stage. -/
theorem C3_witness :
    (answer demoEnvNoModel
        { stage := 9, history := [], followup_pending := false, driver_name := [] }
        "ok".toList "Q".toList).1.stage = 10 := by
  have h := C3_amended.2.2 demoEnvNoModel
    { stage := 9, history := [], followup_pending := false, driver_name := [] }
    "ok".toList "Q".toList (by decide)
  rw [h]

/-! ### C4 -/

/-- C4 counterexample: a request that fails (the `call_followup` generation
call raises) does not leave the session in its pre-request state — the
appended history entry survives the exception. -/
theorem C4_counterexample :
    (answer demoEnvRaise start_state "hi".toList "Qx".toList).2 = Except.error () ∧
    (answer demoEnvRaise start_state "hi".toList "Qx".toList).1 ≠ start_state ∧
    (answer demoEnvRaise start_state "hi".toList "Qx".toList).1
      = { start_state with history := [{ q := "Qx".toList, a := "hi".toList }] } := by
  exact ⟨by decide, by decide, by decide⟩

/-- C4 (amended): `submitAnswer` is not atomic.  The history append happens
before any fallible processing and always persists — every request, failing
or not, grows the history by exactly its turn; in particular, when the
follow-up generation call raises, the handler fails with the turn appended
while stage and pending flag keep their pre-request values. -/
theorem C4_amended (env : Env) (st : SessionState) (pa pq : Str) :
    (answer env st pa pq).1.history
      = st.history ++ [{ q := computeLastQ env st.stage (strip pq), a := strip pa }] ∧
    (st.followup_pending = false → env.model_available = true →
      env.decisionResp = GenOutcome.ok (some true) →
      env.followupResp = GenOutcome.raises →
      st.stage < STORYLINE.length - 3 →
      (answer env st pa pq).2 = Except.error () ∧
      (answer env st pa pq).1.stage = st.stage ∧
      (answer env st pa pq).1.followup_pending = false) := by
  refine ⟨answer_history env st pa pq, ?_⟩
  intro hp hm hd hf hlt
  have hsf : should_follow_up env (strip pa) = true := by
    simp [should_follow_up, hm, hd]
  have hcf : call_followup env (computeLastQ env st.stage (strip pq)) (strip pa)
      = Except.error () := by
    simp [call_followup, hm, hf]
  unfold answer
  dsimp only
  rw [if_neg (by simp [hp]), if_pos ⟨hlt, hsf⟩, hcf]
  exact ⟨rfl, recordPhase_stage env st _ _, by rw [recordPhase_pending]; exact hp⟩

/-- C4 witness: the amended statement at the raising environment. -/
theorem C4_witness :
    (answer demoEnvRaise start_state "hello".toList "Qy".toList).2 = Except.error () ∧
    (answer demoEnvRaise start_state "hello".toList "Qy".toList).1.stage
      = start_state.stage := by
  have h := (C4_amended demoEnvRaise start_state "hello".toList "Qy".toList).2
    rfl rfl rfl rfl (by decide)
  exact ⟨h.1, h.2.1⟩

/-! ### C5 -/

/-- The random variant pick is never empty for an in-range stage: every stage
has three non-empty variants, so the `variants[0]` fallback branch of the
handler is dead for in-range stages. -/
lemma pick_variant_ne_nil (r i : Nat) (h : i < STORYLINE.length) :
    pick_variant r i ≠ [] := by
  have hN : STORYLINE.length = 9 := rfl
  have h3 : (stageAt i).variants.length = 3 := by
    have hball : ∀ j, j < 9 → (stageAt j).variants.length = 3 := by decide
    exact hball i (by omega)
  have hall : ∀ j, j < 9 → ∀ k, k < 3 → (stageAt j).variants.getD k [] ≠ [] := by decide
  unfold pick_variant
  rw [if_pos h, h3]
  exact hall i (by omega) _ (Nat.mod_lt _ (by omega))

/-- With an absent payload question and an in-range stage, the recorded
question is the randomly picked variant. -/
lemma computeLastQ_empty (env : Env) (i : Nat) (h : i < STORYLINE.length) :
    computeLastQ env i [] = pick_variant env.rQuestion i := by
  simp [computeLastQ, pick_variant_ne_nil env.rQuestion i h]

/-- C5 counterexample: submitting with an absent `shownQuestion` while the
random draw lands on index 1 records the second variant of the stage, not the
canonical first fallback question. -/
theorem C5_counterexample :
    (answer demoEnvR1 start_state "hi".toList []).1.history
      = [{ q := (stageAt 0).variants.getD 1 [], a := "hi".toList }] ∧
    (stageAt 0).variants.getD 1 [] ≠ (stageAt 0).variants.getD 0 [] := by
  exact ⟨by decide, by decide⟩

/-- C5 (amended): when `shownQuestion` is absent and the stage is in range,
the Turn appended to history records the uniformly random fallback variant
`variants[r mod 3]` chosen by `pick_variant` — not necessarily the first
entry of the stage's fallback list (the handler's `variants[0]` branch is
unreachable for in-range stages because the picked variant is never empty). -/
theorem C5_amended (env : Env) (st : SessionState) (pa pq : Str)
    (hq : strip pq = []) (hs : st.stage < STORYLINE.length) :
    (answer env st pa pq).1.history
      = st.history ++ [{ q := pick_variant env.rQuestion st.stage, a := strip pa }] := by
  rw [answer_history, hq, computeLastQ_empty env st.stage hs]

/-- C5 witness: the amended statement at the draw-1 environment and the fresh
session. -/
theorem C5_witness :
    (answer demoEnvR1 start_state "ok".toList []).1.history
      = start_state.history
          ++ [{ q := pick_variant demoEnvR1.rQuestion start_state.stage,
                a := strip "ok".toList }] :=
  C5_amended demoEnvR1 start_state "ok".toList [] (by decide) (by decide)

/-! ### C6 -/

/-- C6: the trailing-exclusion window is enforced.  In every reachable
session state a set pending flag implies the stage is strictly below
`N - 3 = 6`; and a submission at stage 6, 7 or 8 (or later) never sets the
flag and always advances the stage — regardless of the oracle outcome carried
by `env`. -/
theorem C6_eligibility (s : SessionState) (hs : Reachable s) :
    (s.followup_pending = true → s.stage < STORYLINE.length - 3) ∧
    (STORYLINE.length - 3 ≤ s.stage →
      ∀ (env : Env) (pa pq : Str),
        (answer env s pa pq).1.followup_pending = false ∧
        (answer env s pa pq).1.stage = s.stage + 1) := by
  refine ⟨reachable_pending_lt hs, ?_⟩
  intro hge env pa pq
  have hnp : ¬ s.stage < STORYLINE.length - 3 := by omega
  rw [answer_tail_exact env s pa pq hnp]
  exact ⟨rfl, rfl⟩

/-- C6 witness: a reachable state with the flag set (after one long answer at
stage 0) is indeed inside the window. -/
theorem C6_witness :
    (answer demoEnvNoModel start_state longAnswer "Q1".toList).1.followup_pending
        = true ∧
    (answer demoEnvNoModel start_state longAnswer "Q1".toList).1.stage
        < STORYLINE.length - 3 :=
  ⟨by decide,
   (C6_eligibility _
      (Reachable.step demoEnvNoModel longAnswer ("Q1".toList) Reachable.init)).1
     (by decide)⟩

/-! ### C7 -/

/-- C7: answering while a follow-up is pending unconditionally clears the
flag and advances the stage by one, and the outcome is independent of the
Follow-up Decision Oracle (the `decisionResp` component of the environment is
never consulted on this path). -/
theorem C7_followup_clears (env : Env) (st : SessionState) (pa pq : Str)
    (h : st.followup_pending = true) :
    (answer env st pa pq).1.followup_pending = false ∧
    (answer env st pa pq).1.stage = st.stage + 1 ∧
    (∀ d, answer { env with decisionResp := d } st pa pq = answer env st pa pq) := by
  have h1 : ∀ (e : Env), answer e st pa pq
      = finishOrAsk e
          { recordPhase e st (strip pa) (computeLastQ e st.stage (strip pq)) with
            followup_pending := false, stage := st.stage + 1 } (st.stage + 1) := by
    intro e
    unfold answer
    dsimp only
    rw [if_pos h]
  refine ⟨?_, ?_, ?_⟩
  · rw [h1, finishOrAsk_fst]
  · rw [h1, finishOrAsk_fst]
  · intro d
    rw [h1, h1]
    rfl

/-- C7 witness: the statement at a concrete pending state. -/
theorem C7_witness :
    (answer demoEnvNoModel
        { stage := 2, history := [], followup_pending := true, driver_name := [] }
        "ok".toList "Q".toList).1.followup_pending = false ∧
    (answer demoEnvNoModel
        { stage := 2, history := [], followup_pending := true, driver_name := [] }
        "ok".toList "Q".toList).1.stage = 3 := by
  have h := C7_followup_clears demoEnvNoModel
    { stage := 2, history := [], followup_pending := true, driver_name := [] }
    "ok".toList "Q".toList rfl
  exact ⟨h.1, h.2.1⟩

/-! ### C8 -/

/-- C8: with the Generation Adapter unavailable the Recap Assembler always
succeeds, returns the fixed generic title, and its body contains every
question and every answer of the history as contiguous substrings, in
order. -/
theorem C8_recap_fallback (env : Env) (history : List Turn)
    (h : env.model_available = false) :
    call_recap env history
      = Except.ok ("Race Day Recap".toList, recapFallbackBody history) ∧
    chainIn (interleaveQA history) (recapFallbackBody history) := by
  constructor
  · simp [call_recap, h]
  · exact recapFallback_chain history

/-- C8 witness: the statement at the unconfigured environment and a two-turn
history. -/
theorem C8_witness :
    call_recap demoEnvNoModel
        [{ q := "Qa".toList, a := "Aa".toList }, { q := "Qb".toList, a := "Ab".toList }]
      = Except.ok ("Race Day Recap".toList,
          recapFallbackBody
            [{ q := "Qa".toList, a := "Aa".toList },
             { q := "Qb".toList, a := "Ab".toList }]) ∧
    chainIn
      (interleaveQA
        [{ q := "Qa".toList, a := "Aa".toList }, { q := "Qb".toList, a := "Ab".toList }])
      (recapFallbackBody
        [{ q := "Qa".toList, a := "Aa".toList }, { q := "Qb".toList, a := "Ab".toList }]) :=
  C8_recap_fallback demoEnvNoModel _ rfl

/-! ### C9 -/

/-- C9: with the adapter unavailable, the regex fallback extracts "Alex" from
the canonical intro answer, and submitting that answer on the intro stage
(stage index 1) stores `driver_name = "Alex"`. -/
theorem C9_intro_name :
    regex_name_guess "My name is Alex, driving a Civic".toList = "Alex".toList ∧
    (answer demoEnvNoModel
        { stage := 1,
          history := [{ q := (stageAt 0).variants.getD 0 [], a := "Spring Sprint".toList }],
          followup_pending := false, driver_name := [] }
        "My name is Alex, driving a Civic".toList
        ((stageAt 1).variants.getD 0 [])).1.driver_name = "Alex".toList := by
  exact ⟨by decide, by decide⟩

/-! ### C10 -/

/-- C10: the acknowledgment sanitizer always returns at most 280 characters
with no question mark and no exclamation mark; consequently every
acknowledgment produced by `call_followup_ack` (all of whose branches pass
through the sanitizer) is a bounded statement-only string. -/
theorem C10_sanitizer_bounded (text : Str) :
    ((sanitize_ack text).length ≤ 280 ∧
      '?' ∉ sanitize_ack text ∧ '!' ∉ sanitize_ack text) ∧
    (∀ (env : Env) (a u : Str),
      (call_followup_ack env a u).length ≤ 280 ∧
      '?' ∉ call_followup_ack env a u ∧ '!' ∉ call_followup_ack env a u) := by
  refine ⟨sanitize_ack_props text, ?_⟩
  intro env a u
  unfold call_followup_ack fallbackSnippetAck
  dsimp only
  split
  · exact sanitize_ack_props _
  · split
    · exact sanitize_ack_props _
    · exact sanitize_ack_props _
    · split
      · exact sanitize_ack_props _
      · exact sanitize_ack_props _

end RacerRecap











